import Mathlib

/-!
Shallow embedding of the force-directed label placement engine
(the canonical custom integrator of `src/index.ts`, class `ForceSimulation`)
over exact real arithmetic.  JavaScript numbers are modelled as real numbers;
`Math.sqrt` is `Real.sqrt`, `Math.abs` is `abs`, `Math.max` is `max`,
`x ?? d` on optional fields is `Option.getD`.  The mutable label array is
modelled by explicit state passing on `List PositionedLabel`; the indexed
`for` loops over unordered pairs become folds over the pair-index list.
-/

namespace ForceSim

/-- 2D vector, mirroring the `Vector2` values used by the engine. -/
structure Vec2 where
  x : ℝ
  y : ℝ

/-- Input label (`Label` in `types.ts`): id, anchor, display content
(never inspected by the engine, modelled as a `String`), optional priority
and optional box dimensions. -/
structure Label where
  id : String
  anchor : Vec2
  content : String
  priority : Option ℝ
  width : Option ℝ
  height : Option ℝ

/-- Engine-owned label state (`PositionedLabel` in `types.ts`). -/
structure PositionedLabel extends Label where
  position : Vec2
  velocity : Vec2
  force : Vec2

/-- Fully populated configuration (`Required<ForceConfig>`). -/
structure Config where
  anchorStrength : ℝ
  repulsionStrength : ℝ
  repulsionRadius : ℝ
  enableCollision : Bool
  collisionPadding : ℝ
  minDistance : ℝ
  maxDistance : ℝ
  friction : ℝ
  iterations : ℕ
  maxVelocity : ℝ
  threshold : ℝ

/-- A sparse configuration update (each field optional): a field may be
present (`some`) or absent (`none`). -/
structure ConfigUpdate where
  anchorStrength : Option ℝ
  repulsionStrength : Option ℝ
  repulsionRadius : Option ℝ
  enableCollision : Option Bool
  collisionPadding : Option ℝ
  minDistance : Option ℝ
  maxDistance : Option ℝ
  friction : Option ℝ
  iterations : Option ℕ
  maxVelocity : Option ℝ
  threshold : Option ℝ

/-- `setConfig`'s merge `{ ...this.config, ...config }`: a field present in
the update overrides the current value, an absent field keeps it. -/
def mergeConfig (cfg : Config) (u : ConfigUpdate) : Config where
  anchorStrength := u.anchorStrength.getD cfg.anchorStrength
  repulsionStrength := u.repulsionStrength.getD cfg.repulsionStrength
  repulsionRadius := u.repulsionRadius.getD cfg.repulsionRadius
  enableCollision := u.enableCollision.getD cfg.enableCollision
  collisionPadding := u.collisionPadding.getD cfg.collisionPadding
  minDistance := u.minDistance.getD cfg.minDistance
  maxDistance := u.maxDistance.getD cfg.maxDistance
  friction := u.friction.getD cfg.friction
  iterations := u.iterations.getD cfg.iterations
  maxVelocity := u.maxVelocity.getD cfg.maxVelocity
  threshold := u.threshold.getD cfg.threshold

/-- Indexed map, the embedding of `labels.map((label, index) => ...)`. -/
def mapWithIndex (f : ℕ → Label → PositionedLabel) : ℕ → List Label → List PositionedLabel
  | _, [] => []
  | i, l :: ls => f i l :: mapWithIndex f (i + 1) ls

/-- Initial placement of one label (body of the `map` in `setLabels`):
angle `index * π * 2 / n`, radius `minDistance + 20`, position on that
circle around the label's own anchor, zero velocity and force, width and
height defaulted to 100 and 30. -/
noncomputable def placeLabel (cfg : Config) (n : ℕ) (index : ℕ) (label : Label) : PositionedLabel :=
  let angle : ℝ := ((index : ℝ) * Real.pi * 2) / (n : ℝ)
  let radius : ℝ := cfg.minDistance + 20
  { toLabel :=
      { label with
        width := some (label.width.getD 100)
        height := some (label.height.getD 30) }
    position := ⟨label.anchor.x + Real.cos angle * radius,
                 label.anchor.y + Real.sin angle * radius⟩
    velocity := ⟨0, 0⟩
    force := ⟨0, 0⟩ }

/-- `setLabels`: build the simulation state from the input labels. -/
noncomputable def setLabels (cfg : Config) (labels : List Label) : List PositionedLabel :=
  mapWithIndex (placeLabel cfg labels.length) 0 labels

/-- Magnitude of a label's force vector
(`Math.sqrt(label.force.x ** 2 + label.force.y ** 2)`). -/
noncomputable def forceMag (label : PositionedLabel) : ℝ :=
  Real.sqrt (label.force.x ^ 2 + label.force.y ^ 2)

/-- Distance from a label's position to its own anchor. -/
noncomputable def anchorDist (label : PositionedLabel) : ℝ :=
  Real.sqrt ((label.position.x - label.anchor.x) ^ 2 +
             (label.position.y - label.anchor.y) ^ 2)

/-- The force-reset loop at the top of each inner iteration. -/
def resetForces (ls : List PositionedLabel) : List PositionedLabel :=
  ls.map (fun label => { label with force := ⟨0, 0⟩ })

/-- Body of `applyAnchorForces` for one label: spring pull towards the
label's own anchor, strength `anchorStrength * (priority ?? 1)`, magnitude
linear in the distance; skipped at distance zero. -/
noncomputable def anchorForceLabel (cfg : Config) (label : PositionedLabel) : PositionedLabel :=
  let dx := label.anchor.x - label.position.x
  let dy := label.anchor.y - label.position.y
  let distance := Real.sqrt (dx ^ 2 + dy ^ 2)
  if distance > 0 then
    let strength := cfg.anchorStrength * (label.priority.getD 1)
    { label with
      force := ⟨label.force.x + dx / distance * distance * strength,
                label.force.y + dy / distance * distance * strength⟩ }
  else label

/-- `applyAnchorForces`. -/
noncomputable def applyAnchorForces (cfg : Config) (ls : List PositionedLabel) :
    List PositionedLabel :=
  ls.map (anchorForceLabel cfg)

/-- Body of the inner pair loop of `applyRepulsionForces`: inverse-square
repulsion between two labels within `repulsionRadius`, equal and opposite
on the two members; skipped at or beyond the radius and at distance zero. -/
noncomputable def repulsePair (cfg : Config) (a b : PositionedLabel) :
    PositionedLabel × PositionedLabel :=
  let dx := b.position.x - a.position.x
  let dy := b.position.y - a.position.y
  let distance := Real.sqrt (dx ^ 2 + dy ^ 2)
  if distance < cfg.repulsionRadius ∧ distance > 0 then
    let strength := cfg.repulsionStrength / distance ^ 2
    let fx := dx / distance * strength
    let fy := dy / distance * strength
    ({ a with force := ⟨a.force.x - fx, a.force.y - fy⟩ },
     { b with force := ⟨b.force.x + fx, b.force.y + fy⟩ })
  else (a, b)

/-- The list of index pairs `(i, j)` with `i < j < n` visited by the nested
loops `for i in [0, n)` / `for j in [i+1, n)`, in loop order. -/
def pairIdx (n : ℕ) : List (ℕ × ℕ) :=
  (List.range n).flatMap (fun i => (List.range' (i + 1) (n - (i + 1))).map (fun j => (i, j)))

/-- One pair update applied to the label array at indices `i`, `j`. -/
noncomputable def repulsePairAt (cfg : Config) (ls : List PositionedLabel) (ij : ℕ × ℕ) :
    List PositionedLabel :=
  match ls[ij.1]?, ls[ij.2]? with
  | some a, some b =>
      let r := repulsePair cfg a b
      (ls.set ij.1 r.1).set ij.2 r.2
  | _, _ => ls

/-- `applyRepulsionForces`: the nested pair loop as a fold over `pairIdx`. -/
noncomputable def applyRepulsionForces (cfg : Config) (ls : List PositionedLabel) :
    List PositionedLabel :=
  (pairIdx ls.length).foldl (repulsePairAt cfg) ls

/-- Body of the inner pair loop of `applyCollisionForces`: axis-aligned
box overlap test (half extents plus `collisionPadding`), push apart along
the axis of smaller overlap with factor `0.5`, opposite signs on the two
members; ties (`overlapX = overlapY`) take the vertical branch. -/
noncomputable def collidePair (cfg : Config) (a b : PositionedLabel) :
    PositionedLabel × PositionedLabel :=
  let padding := cfg.collisionPadding
  let dx := b.position.x - a.position.x
  let dy := b.position.y - a.position.y
  let minDistX := ((a.width.getD 100) + (b.width.getD 100)) / 2 + padding
  let minDistY := ((a.height.getD 30) + (b.height.getD 30)) / 2 + padding
  let overlapX := minDistX - |dx|
  let overlapY := minDistY - |dy|
  if overlapX > 0 ∧ overlapY > 0 then
    let strength : ℝ := 0.5
    if overlapX < overlapY then
      let fx := (if dx > 0 then overlapX else -overlapX) * strength
      ({ a with force := ⟨a.force.x - fx, a.force.y⟩ },
       { b with force := ⟨b.force.x + fx, b.force.y⟩ })
    else
      let fy := (if dy > 0 then overlapY else -overlapY) * strength
      ({ a with force := ⟨a.force.x, a.force.y - fy⟩ },
       { b with force := ⟨b.force.x, b.force.y + fy⟩ })
  else (a, b)

/-- One collision pair update applied to the label array. -/
noncomputable def collidePairAt (cfg : Config) (ls : List PositionedLabel) (ij : ℕ × ℕ) :
    List PositionedLabel :=
  match ls[ij.1]?, ls[ij.2]? with
  | some a, some b =>
      let r := collidePair cfg a b
      (ls.set ij.1 r.1).set ij.2 r.2
  | _, _ => ls

/-- `applyCollisionForces`. -/
noncomputable def applyCollisionForces (cfg : Config) (ls : List PositionedLabel) :
    List PositionedLabel :=
  (pairIdx ls.length).foldl (collidePairAt cfg) ls

/-- The `if (this.config.enableCollision)` guard around the collision pass. -/
noncomputable def collisionPhase (cfg : Config) (ls : List PositionedLabel) :
    List PositionedLabel :=
  if cfg.enableCollision then applyCollisionForces cfg ls else ls

/-- The force-application phase of one inner iteration: reset forces,
anchor attraction, inter-label repulsion, optional collision resolution. -/
noncomputable def forcesPhase (cfg : Config) (ls : List PositionedLabel) :
    List PositionedLabel :=
  collisionPhase cfg (applyRepulsionForces cfg (applyAnchorForces cfg (resetForces ls)))

/-- Integration of one label: `velocity += force`; `velocity *= friction`;
clamp the velocity to `maxVelocity` preserving direction; `position += velocity`. -/
noncomputable def integrateLabel (cfg : Config) (label : PositionedLabel) : PositionedLabel :=
  let vx := (label.velocity.x + label.force.x) * cfg.friction
  let vy := (label.velocity.y + label.force.y) * cfg.friction
  let speed := Real.sqrt (vx ^ 2 + vy ^ 2)
  let vx' := if speed > cfg.maxVelocity then vx / speed * cfg.maxVelocity else vx
  let vy' := if speed > cfg.maxVelocity then vy / speed * cfg.maxVelocity else vy
  { label with
    velocity := ⟨vx', vy'⟩
    position := ⟨label.position.x + vx', label.position.y + vy'⟩ }

/-- The position-update loop: integrate every label and fold the running
maximum of the force magnitudes (the force field is not modified by
integration, so the single source loop splits into these two traversals). -/
noncomputable def integrate (cfg : Config) (ls : List PositionedLabel) (maxForce : ℝ) :
    List PositionedLabel × ℝ :=
  (ls.map (integrateLabel cfg),
   ls.foldl (fun m label => max m (forceMag label)) maxForce)

/-- Body of `applyBoundsConstraints` for one label: radially rescale the
position onto the `minDistance` (resp. `maxDistance`) circle when too
close (resp. too far); skipped at distance zero. -/
noncomputable def boundsLabel (cfg : Config) (label : PositionedLabel) : PositionedLabel :=
  let dx := label.position.x - label.anchor.x
  let dy := label.position.y - label.anchor.y
  let distance := Real.sqrt (dx ^ 2 + dy ^ 2)
  if distance < cfg.minDistance ∧ distance > 0 then
    let scale := cfg.minDistance / distance
    { label with position := ⟨label.anchor.x + dx * scale, label.anchor.y + dy * scale⟩ }
  else if distance > cfg.maxDistance ∧ distance > 0 then
    let scale := cfg.maxDistance / distance
    { label with position := ⟨label.anchor.x + dx * scale, label.anchor.y + dy * scale⟩ }
  else label

/-- `applyBoundsConstraints`. -/
noncomputable def applyBoundsConstraints (cfg : Config) (ls : List PositionedLabel) :
    List PositionedLabel :=
  ls.map (boundsLabel cfg)

/-- One inner iteration of `step` on the state (label array, running
`maxForce` accumulator): forces phase, integration, bounds constraints. -/
noncomputable def stepIter (cfg : Config) (st : List PositionedLabel × ℝ) :
    List PositionedLabel × ℝ :=
  let r := integrate cfg (forcesPhase cfg st.1) st.2
  (applyBoundsConstraints cfg r.1, r.2)

/-- `step()`: empty label set is a converged no-op; otherwise run
`iterations` inner iterations with the `maxForce` accumulator starting at 0
and report whether the accumulated maximum force stayed below `threshold`. -/
noncomputable def step (cfg : Config) (ls : List PositionedLabel) :
    List PositionedLabel × Bool :=
  if ls.length = 0 then (ls, true)
  else
    let r := (stepIter cfg)^[cfg.iterations] (ls, 0)
    (r.1, decide (r.2 < cfg.threshold))

/-- The whole engine object: current configuration and label array. -/
structure Engine where
  config : Config
  labels : List PositionedLabel

/-- `step()` at the engine level. -/
noncomputable def Engine.step (e : Engine) : Engine × Bool :=
  let r := ForceSim.step e.config e.labels
  ({ e with labels := r.1 }, r.2)

/-- `getLabels()`. -/
def Engine.getLabels (e : Engine) : List PositionedLabel :=
  e.labels

/-- `setConfig(config)`: merge a sparse configuration update over the live one. -/
def Engine.setConfig (e : Engine) (u : ConfigUpdate) : Engine :=
  { e with config := mergeConfig e.config u }

/-- The labels after `k` inner iterations of one `step()` call. -/
noncomputable def labelsAfter (cfg : Config) (ls : List PositionedLabel) (k : ℕ) :
    List PositionedLabel :=
  ((stepIter cfg)^[k] (ls, 0)).1

/-- The maximum per-label force magnitude recorded in inner iteration `k`
alone (accumulator restarted at 0 for that iteration). -/
noncomputable def iterMaxForce (cfg : Config) (ls : List PositionedLabel) (k : ℕ) : ℝ :=
  (stepIter cfg (labelsAfter cfg ls k, 0)).2

/-- Modelled from the spec: the anchor-repulsion force that §4.2 step 4
(and claim C3) asserts a label receives from another label's anchor —
cutoff radius `repulsionRadius * 0.5`, strength `repulsionStrength * 2`,
inverse-square law, zero at coincidence or beyond the cutoff.  This force
does not exist in the canonical custom engine; the definition exists to
compare the claim against the code. -/
noncomputable def specAnchorRepulsionForce (cfg : Config) (l : PositionedLabel)
    (otherAnchor : Vec2) : Vec2 :=
  let dx := l.position.x - otherAnchor.x
  let dy := l.position.y - otherAnchor.y
  let d := Real.sqrt (dx ^ 2 + dy ^ 2)
  if d < cfg.repulsionRadius * 0.5 ∧ d > 0 then
    ⟨dx / d * (cfg.repulsionStrength * 2 / d ^ 2),
     dy / d * (cfg.repulsionStrength * 2 / d ^ 2)⟩
  else ⟨0, 0⟩

/-- The fields of a label that the physics never touches:
id, anchor, content, priority, width, height. -/
def skeleton (l : PositionedLabel) : String × Vec2 × String × Option ℝ × Option ℝ × Option ℝ :=
  (l.id, l.anchor, l.content, l.priority, l.width, l.height)

/-- The defaults applied by the `ForceSimulation` constructor. -/
noncomputable def defaultConfig : Config where
  anchorStrength := 0.1
  repulsionStrength := 50
  repulsionRadius := 100
  enableCollision := true
  collisionPadding := 10
  minDistance := 40
  maxDistance := 200
  friction := 0.9
  iterations := 3
  maxVelocity := 5
  threshold := 0.1

/-- A positioned label with zero velocity and force and no optional fields,
used as concrete test input. -/
def mkLbl (s : String) (anchor position : Vec2) : PositionedLabel where
  id := s
  anchor := anchor
  content := s
  priority := none
  width := none
  height := none
  position := position
  velocity := ⟨0, 0⟩
  force := ⟨0, 0⟩

/-- A configuration with zero anchor strength: a single in-bounds resting
label experiences no force at all. -/
noncomputable def cfgCalm : Config where
  anchorStrength := 0
  repulsionStrength := 50
  repulsionRadius := 100
  enableCollision := false
  collisionPadding := 10
  minDistance := 40
  maxDistance := 200
  friction := 0.9
  iterations := 1
  maxVelocity := 5
  threshold := 0.1

/-- A resting label at distance 60 from its anchor. -/
def lblCalm : PositionedLabel := mkLbl "a" ⟨0, 0⟩ ⟨60, 0⟩

/-- A configuration under which `lblCalm` lands exactly on its anchor after
one iteration: spring gain `anchorStrength * friction = 1` moves the label
the whole way to the anchor in one integration. -/
noncomputable def cfgOnAnchor : Config where
  anchorStrength := 1
  repulsionStrength := 50
  repulsionRadius := 100
  enableCollision := false
  collisionPadding := 10
  minDistance := 40
  maxDistance := 200
  friction := 1
  iterations := 1
  maxVelocity := 100
  threshold := 0.1

/-- Two-iteration configuration for the convergence-accumulation test:
iteration 1 sees force magnitude 4, iteration 2 sees force magnitude 2,
threshold 3 lies strictly between. -/
noncomputable def cfgAccum : Config where
  anchorStrength := 1 / 2
  repulsionStrength := 50
  repulsionRadius := 100
  enableCollision := false
  collisionPadding := 10
  minDistance := 1
  maxDistance := 100
  friction := 1
  iterations := 2
  maxVelocity := 100
  threshold := 3

/-- A resting label at distance 8 from its anchor. -/
def lblAccum : PositionedLabel := mkLbl "a" ⟨0, 0⟩ ⟨8, 0⟩

/-- Configuration for the anchor-repulsion test. -/
noncomputable def cfgAnchorRep : Config where
  anchorStrength := 1 / 10
  repulsionStrength := 50
  repulsionRadius := 100
  enableCollision := false
  collisionPadding := 10
  minDistance := 1
  maxDistance := 2000
  friction := 0.9
  iterations := 1
  maxVelocity := 5
  threshold := 0.1

/-- A label sitting 2 units from the other label's anchor (which is at
(10, 0)), far away from the other label itself. -/
def lblNearAnchor : PositionedLabel := mkLbl "a" ⟨0, 0⟩ ⟨12, 0⟩

/-- The other label: anchored at (10, 0) but positioned 988 units away from
`lblNearAnchor`, outside every repulsion radius in play. -/
def lblFar : PositionedLabel := mkLbl "b" ⟨10, 0⟩ ⟨1000, 0⟩

/-- An engine holding the default configuration and no labels. -/
noncomputable def emptyEngine : Engine where
  config := defaultConfig
  labels := []

/-- Two labels 10 units apart for the repulsion pair test. -/
def lblPairA : PositionedLabel := mkLbl "a" ⟨0, 0⟩ ⟨0, 0⟩

/-- Second label of the repulsion pair test. -/
def lblPairB : PositionedLabel := mkLbl "b" ⟨50, 0⟩ ⟨10, 0⟩

/-- Plain input label for the placement test. -/
def lblInput : Label where
  id := "a"
  anchor := ⟨3, 4⟩
  content := "a"
  priority := none
  width := none
  height := none

/-- Distance between the positions of two labels, as computed inside the
pair loops. -/
noncomputable def pairDist (a b : PositionedLabel) : ℝ :=
  Real.sqrt ((b.position.x - a.position.x) ^ 2 + (b.position.y - a.position.y) ^ 2)

/-- The x-overlap of the padded boxes of two labels
(`minDistX - Math.abs(dx)` in `applyCollisionForces`). -/
noncomputable def overlapX (cfg : Config) (a b : PositionedLabel) : ℝ :=
  ((a.width.getD 100) + (b.width.getD 100)) / 2 + cfg.collisionPadding
    - |b.position.x - a.position.x|

/-- The y-overlap of the padded boxes of two labels
(`minDistY - Math.abs(dy)` in `applyCollisionForces`). -/
noncomputable def overlapY (cfg : Config) (a b : PositionedLabel) : ℝ :=
  ((a.height.getD 30) + (b.height.getD 30)) / 2 + cfg.collisionPadding
    - |b.position.y - a.position.y|

end ForceSim

namespace ForceSim

/-! ### Small helper lemmas -/

lemma sqrtOfSq {a b : ℝ} (hb : 0 ≤ b) (h : b ^ 2 = a) : Real.sqrt a = b := by
  rw [← h, Real.sqrt_sq hb]

lemma pairIdx_zero : pairIdx 0 = [] := rfl

lemma pairIdx_one : pairIdx 1 = [] := rfl

lemma pairIdx_two : pairIdx 2 = [(0, 1)] := rfl

/-! Field-preservation of the per-label bodies. -/

lemma anchorForceLabel_position (cfg : Config) (l : PositionedLabel) :
    (anchorForceLabel cfg l).position = l.position := by
  simp only [anchorForceLabel]; split <;> rfl

lemma anchorForceLabel_velocity (cfg : Config) (l : PositionedLabel) :
    (anchorForceLabel cfg l).velocity = l.velocity := by
  simp only [anchorForceLabel]; split <;> rfl

lemma anchorForceLabel_toLabel (cfg : Config) (l : PositionedLabel) :
    (anchorForceLabel cfg l).toLabel = l.toLabel := by
  simp only [anchorForceLabel]; split <;> rfl

lemma repulsePair_fst_position (cfg : Config) (a b : PositionedLabel) :
    (repulsePair cfg a b).1.position = a.position := by
  simp only [repulsePair]; split <;> rfl

lemma repulsePair_snd_position (cfg : Config) (a b : PositionedLabel) :
    (repulsePair cfg a b).2.position = b.position := by
  simp only [repulsePair]; split <;> rfl

lemma repulsePair_fst_toLabel (cfg : Config) (a b : PositionedLabel) :
    (repulsePair cfg a b).1.toLabel = a.toLabel := by
  simp only [repulsePair]; split <;> rfl

lemma repulsePair_snd_toLabel (cfg : Config) (a b : PositionedLabel) :
    (repulsePair cfg a b).2.toLabel = b.toLabel := by
  simp only [repulsePair]; split <;> rfl

lemma repulsePair_fst_velocity (cfg : Config) (a b : PositionedLabel) :
    (repulsePair cfg a b).1.velocity = a.velocity := by
  simp only [repulsePair]; split <;> rfl

lemma repulsePair_snd_velocity (cfg : Config) (a b : PositionedLabel) :
    (repulsePair cfg a b).2.velocity = b.velocity := by
  simp only [repulsePair]; split <;> rfl

lemma collidePair_fst_position (cfg : Config) (a b : PositionedLabel) :
    (collidePair cfg a b).1.position = a.position := by
  simp only [collidePair]; split
  · split <;> rfl
  · rfl

lemma collidePair_snd_position (cfg : Config) (a b : PositionedLabel) :
    (collidePair cfg a b).2.position = b.position := by
  simp only [collidePair]; split
  · split <;> rfl
  · rfl

lemma collidePair_fst_toLabel (cfg : Config) (a b : PositionedLabel) :
    (collidePair cfg a b).1.toLabel = a.toLabel := by
  simp only [collidePair]; split
  · split <;> rfl
  · rfl

lemma collidePair_snd_toLabel (cfg : Config) (a b : PositionedLabel) :
    (collidePair cfg a b).2.toLabel = b.toLabel := by
  simp only [collidePair]; split
  · split <;> rfl
  · rfl

lemma collidePair_fst_velocity (cfg : Config) (a b : PositionedLabel) :
    (collidePair cfg a b).1.velocity = a.velocity := by
  simp only [collidePair]; split
  · split <;> rfl
  · rfl

lemma collidePair_snd_velocity (cfg : Config) (a b : PositionedLabel) :
    (collidePair cfg a b).2.velocity = b.velocity := by
  simp only [collidePair]; split
  · split <;> rfl
  · rfl

lemma boundsLabel_velocity (cfg : Config) (l : PositionedLabel) :
    (boundsLabel cfg l).velocity = l.velocity := by
  simp only [boundsLabel]; split
  · rfl
  · split <;> rfl

lemma boundsLabel_force (cfg : Config) (l : PositionedLabel) :
    (boundsLabel cfg l).force = l.force := by
  simp only [boundsLabel]; split
  · rfl
  · split <;> rfl

lemma boundsLabel_toLabel (cfg : Config) (l : PositionedLabel) :
    (boundsLabel cfg l).toLabel = l.toLabel := by
  simp only [boundsLabel]; split
  · rfl
  · split <;> rfl

lemma integrateLabel_toLabel (cfg : Config) (l : PositionedLabel) :
    (integrateLabel cfg l).toLabel = l.toLabel := rfl

lemma integrateLabel_force (cfg : Config) (l : PositionedLabel) :
    (integrateLabel cfg l).force = l.force := rfl

/-! Two-element pass shapes. -/

lemma applyRepulsionForces_pair (cfg : Config) (a b : PositionedLabel) :
    applyRepulsionForces cfg [a, b] =
      [(repulsePair cfg a b).1, (repulsePair cfg a b).2] := by
  simp [applyRepulsionForces, pairIdx_two, repulsePairAt, List.set]

lemma applyCollisionForces_pair (cfg : Config) (a b : PositionedLabel) :
    applyCollisionForces cfg [a, b] =
      [(collidePair cfg a b).1, (collidePair cfg a b).2] := by
  simp [applyCollisionForces, pairIdx_two, collidePairAt, List.set]

lemma applyRepulsionForces_single (cfg : Config) (a : PositionedLabel) :
    applyRepulsionForces cfg [a] = [a] := by
  simp [applyRepulsionForces, pairIdx_one]

lemma applyCollisionForces_single (cfg : Config) (a : PositionedLabel) :
    applyCollisionForces cfg [a] = [a] := by
  simp [applyCollisionForces, pairIdx_one]

lemma collisionPhase_single (cfg : Config) (a : PositionedLabel) :
    collisionPhase cfg [a] = [a] := by
  simp [collisionPhase, applyCollisionForces_single]

end ForceSim

namespace ForceSim

/-! ### Frame lemmas: the physics never touches id, anchor, content,
priority, width, height, and never changes the number or order of labels. -/

lemma skeleton_eq_of_toLabel {l l' : PositionedLabel} (h : l'.toLabel = l.toLabel) :
    skeleton l' = skeleton l := by
  have h1 : l'.id = l.id := congrArg Label.id h
  have h2 : l'.anchor = l.anchor := congrArg Label.anchor h
  have h3 : l'.content = l.content := congrArg Label.content h
  have h4 : l'.priority = l.priority := congrArg Label.priority h
  have h5 : l'.width = l.width := congrArg Label.width h
  have h6 : l'.height = l.height := congrArg Label.height h
  simp [skeleton, h1, h2, h3, h4, h5, h6]

lemma map_skeleton_set (ls : List PositionedLabel) (i : ℕ) (x a : PositionedLabel)
    (hi : ls[i]? = some a) (hx : skeleton x = skeleton a) :
    (ls.set i x).map skeleton = ls.map skeleton := by
  induction ls generalizing i with
  | nil => simp at hi
  | cons hd tl ih =>
      cases i with
      | zero =>
          simp only [List.getElem?_cons_zero, Option.some.injEq] at hi
          subst hi
          simp [List.set, hx]
      | succ n =>
          simp only [List.getElem?_cons_succ] at hi
          simp [List.set, ih n hi]

lemma set_set_skeleton (ls : List PositionedLabel) (i j : ℕ) (a b x y : PositionedLabel)
    (h1 : ls[i]? = some a) (h2 : ls[j]? = some b)
    (hx : x.toLabel = a.toLabel) (hy : y.toLabel = b.toLabel) :
    ((ls.set i x).set j y).map skeleton = ls.map skeleton := by
  by_cases hij : i = j
  · subst hij
    have hab : a = b := by rw [h1] at h2; exact Option.some.inj h2
    subst hab
    have hlen : i < ls.length := by
      rcases List.getElem?_eq_some.mp h1 with ⟨h, _⟩; exact h
    have hx' : (ls.set i x)[i]? = some x := by
      rw [List.getElem?_set_self']
      simp [List.getElem?_eq_getElem hlen]
    rw [map_skeleton_set _ i y x hx' (skeleton_eq_of_toLabel (hy.trans hx.symm)),
        map_skeleton_set _ i x a h1 (skeleton_eq_of_toLabel hx)]
  · have h2' : (ls.set i x)[j]? = some b := by
      rw [List.getElem?_set_ne hij]; exact h2
    rw [map_skeleton_set _ j y b h2' (skeleton_eq_of_toLabel hy),
        map_skeleton_set _ i x a h1 (skeleton_eq_of_toLabel hx)]

lemma repulsePairAt_skeleton (cfg : Config) (ls : List PositionedLabel) (ij : ℕ × ℕ) :
    (repulsePairAt cfg ls ij).map skeleton = ls.map skeleton := by
  unfold repulsePairAt
  rcases h1 : ls[ij.1]? with _ | a
  · rfl
  · rcases h2 : ls[ij.2]? with _ | b
    · rfl
    · exact set_set_skeleton ls ij.1 ij.2 a b _ _ h1 h2
        (repulsePair_fst_toLabel cfg a b) (repulsePair_snd_toLabel cfg a b)

lemma collidePairAt_skeleton (cfg : Config) (ls : List PositionedLabel) (ij : ℕ × ℕ) :
    (collidePairAt cfg ls ij).map skeleton = ls.map skeleton := by
  unfold collidePairAt
  rcases h1 : ls[ij.1]? with _ | a
  · rfl
  · rcases h2 : ls[ij.2]? with _ | b
    · rfl
    · exact set_set_skeleton ls ij.1 ij.2 a b _ _ h1 h2
        (collidePair_fst_toLabel cfg a b) (collidePair_snd_toLabel cfg a b)

lemma foldl_repulse_skeleton (cfg : Config) (ps : List (ℕ × ℕ)) (ls : List PositionedLabel) :
    ((ps.foldl (repulsePairAt cfg) ls).map skeleton) = ls.map skeleton := by
  induction ps generalizing ls with
  | nil => rfl
  | cons p ps ih => rw [List.foldl_cons, ih, repulsePairAt_skeleton]

lemma foldl_collide_skeleton (cfg : Config) (ps : List (ℕ × ℕ)) (ls : List PositionedLabel) :
    ((ps.foldl (collidePairAt cfg) ls).map skeleton) = ls.map skeleton := by
  induction ps generalizing ls with
  | nil => rfl
  | cons p ps ih => rw [List.foldl_cons, ih, collidePairAt_skeleton]

lemma map_skeleton_of_toLabel (f : PositionedLabel → PositionedLabel)
    (hf : ∀ l, (f l).toLabel = l.toLabel) (ls : List PositionedLabel) :
    (ls.map f).map skeleton = ls.map skeleton := by
  rw [List.map_map]
  exact List.map_congr_left (fun a _ => skeleton_eq_of_toLabel (hf a))

lemma forcesPhase_skeleton (cfg : Config) (ls : List PositionedLabel) :
    (forcesPhase cfg ls).map skeleton = ls.map skeleton := by
  unfold forcesPhase collisionPhase applyRepulsionForces applyCollisionForces
  have h1 : (resetForces ls).map skeleton = ls.map skeleton := by
    rw [resetForces]
    exact map_skeleton_of_toLabel (fun label => { label with force := ⟨0, 0⟩ })
      (fun l => rfl) ls
  have h2 : (applyAnchorForces cfg (resetForces ls)).map skeleton = ls.map skeleton := by
    rw [applyAnchorForces, map_skeleton_of_toLabel _ (anchorForceLabel_toLabel cfg), h1]
  split
  · rw [foldl_collide_skeleton, foldl_repulse_skeleton, h2]
  · rw [foldl_repulse_skeleton, h2]

lemma stepIter_skeleton (cfg : Config) (st : List PositionedLabel × ℝ) :
    (stepIter cfg st).1.map skeleton = st.1.map skeleton := by
  show (applyBoundsConstraints cfg ((forcesPhase cfg st.1).map (integrateLabel cfg))).map skeleton
      = st.1.map skeleton
  rw [applyBoundsConstraints, map_skeleton_of_toLabel _ (boundsLabel_toLabel cfg),
      map_skeleton_of_toLabel _ (integrateLabel_toLabel cfg), forcesPhase_skeleton]

lemma iterate_stepIter_skeleton (cfg : Config) (n : ℕ) (st : List PositionedLabel × ℝ) :
    ((stepIter cfg)^[n] st).1.map skeleton = st.1.map skeleton := by
  induction n generalizing st with
  | zero => rfl
  | succ n ih => rw [Function.iterate_succ_apply, ih, stepIter_skeleton]

end ForceSim

namespace ForceSim

/-! ### Claim theorems: frame and error-handling claims -/

/-- Claim C6: calling `step()` on an empty label set returns converged
(`true`) and changes nothing: the resulting engine — label array and every
configuration field — is the engine it started from, and `getLabels` returns
the identical (empty) list. -/
theorem step_empty_noop (e : Engine) (h : e.getLabels = []) :
    Engine.step e = (e, true) ∧ (Engine.step e).1.getLabels = e.getLabels := by
  obtain ⟨cfg, ls⟩ := e
  simp only [Engine.getLabels] at h
  subst h
  refine ⟨?_, ?_⟩ <;> simp [Engine.step, ForceSim.step, Engine.getLabels]

/-- Witness for C6 at a concrete empty engine. -/
theorem step_empty_noop_witness :
    Engine.step emptyEngine = (emptyEngine, true) ∧
    (Engine.step emptyEngine).1.getLabels = emptyEngine.getLabels :=
  step_empty_noop emptyEngine rfl

/-- Claim C9: `setConfig` (the spec's `updateConfig`) with a sparse update
sets exactly the fields present in the update to their new
values, leaves every absent field at its current value, and leaves the label
state — and with it every label's position, velocity and force — unchanged. -/
theorem setConfig_merge (e : Engine) (u : ConfigUpdate) :
    (e.setConfig u).getLabels = e.getLabels ∧
    (e.setConfig u).config.anchorStrength = u.anchorStrength.getD e.config.anchorStrength ∧
    (e.setConfig u).config.repulsionStrength
      = u.repulsionStrength.getD e.config.repulsionStrength ∧
    (e.setConfig u).config.repulsionRadius = u.repulsionRadius.getD e.config.repulsionRadius ∧
    (e.setConfig u).config.enableCollision = u.enableCollision.getD e.config.enableCollision ∧
    (e.setConfig u).config.collisionPadding
      = u.collisionPadding.getD e.config.collisionPadding ∧
    (e.setConfig u).config.minDistance = u.minDistance.getD e.config.minDistance ∧
    (e.setConfig u).config.maxDistance = u.maxDistance.getD e.config.maxDistance ∧
    (e.setConfig u).config.friction = u.friction.getD e.config.friction ∧
    (e.setConfig u).config.iterations = u.iterations.getD e.config.iterations ∧
    (e.setConfig u).config.maxVelocity = u.maxVelocity.getD e.config.maxVelocity ∧
    (e.setConfig u).config.threshold = u.threshold.getD e.config.threshold :=
  ⟨rfl, rfl, rfl, rfl, rfl, rfl, rfl, rfl, rfl, rfl, rfl, rfl⟩

/-- Claim C10: `step()` mutates only position, velocity and force — for
every label, in place, the id, anchor, content, priority, width and height
are unchanged, and the number and order of the labels returned by
`getLabels` are unchanged. -/
theorem step_frame (e : Engine) :
    ((Engine.step e).1.getLabels).map skeleton = (e.getLabels).map skeleton ∧
    ((Engine.step e).1.getLabels).length = (e.getLabels).length := by
  have h : (ForceSim.step e.config e.labels).1.map skeleton = e.labels.map skeleton := by
    unfold ForceSim.step
    split
    · rfl
    · exact iterate_stepIter_skeleton e.config e.config.iterations (e.labels, 0)
  refine ⟨h, ?_⟩
  have := congrArg List.length h
  simpa using this

end ForceSim

namespace ForceSim

/-! ### Square roots of concrete perfect squares -/

lemma sqrt_3600 : Real.sqrt 3600 = 60 := sqrtOfSq (by norm_num) (by norm_num)

lemma sqrt_64 : Real.sqrt 64 = 8 := sqrtOfSq (by norm_num) (by norm_num)

lemma sqrt_36 : Real.sqrt 36 = 6 := sqrtOfSq (by norm_num) (by norm_num)

lemma sqrt_16 : Real.sqrt 16 = 4 := sqrtOfSq (by norm_num) (by norm_num)

lemma sqrt_4 : Real.sqrt 4 = 2 := sqrtOfSq (by norm_num) (by norm_num)

lemma sqrt_100 : Real.sqrt 100 = 10 := sqrtOfSq (by norm_num) (by norm_num)

lemma sqrt_144 : Real.sqrt 144 = 12 := sqrtOfSq (by norm_num) (by norm_num)

lemma sqrt_976144 : Real.sqrt 976144 = 988 := sqrtOfSq (by norm_num) (by norm_num)

/-! ### Concrete evaluation: the calm single label is a fixed point -/

lemma stepIter_calm : stepIter cfgCalm ([lblCalm], 0) = ([lblCalm], 0) := by
  norm_num [stepIter, forcesPhase, collisionPhase, resetForces, applyAnchorForces,
    anchorForceLabel, applyRepulsionForces, pairIdx_one, integrate, integrateLabel, forceMag,
    applyBoundsConstraints, boundsLabel, Function.comp, cfgCalm, lblCalm, mkLbl,
    sqrt_3600, Real.sqrt_zero]

end ForceSim

namespace ForceSim

/-! ### Claim C7: integration order and the velocity clamp invariant -/

lemma clamp_norm_le {maxV vx vy : ℝ} (h : 0 ≤ maxV) :
    Real.sqrt
      ((if Real.sqrt (vx ^ 2 + vy ^ 2) > maxV
          then vx / Real.sqrt (vx ^ 2 + vy ^ 2) * maxV else vx) ^ 2 +
       (if Real.sqrt (vx ^ 2 + vy ^ 2) > maxV
          then vy / Real.sqrt (vx ^ 2 + vy ^ 2) * maxV else vy) ^ 2) ≤ maxV := by
  set s := Real.sqrt (vx ^ 2 + vy ^ 2) with hs_def
  have hs2 : s ^ 2 = vx ^ 2 + vy ^ 2 := Real.sq_sqrt (by positivity)
  by_cases hcase : s > maxV
  · have hspos : 0 < s := lt_of_le_of_lt h hcase
    have hsne : s ≠ 0 := ne_of_gt hspos
    have key : (vx / s * maxV) ^ 2 + (vy / s * maxV) ^ 2 = maxV ^ 2 := by
      have expand : (vx / s * maxV) ^ 2 + (vy / s * maxV) ^ 2
          = (vx ^ 2 + vy ^ 2) * (maxV ^ 2 / s ^ 2) := by ring
      rw [expand, ← hs2]
      field_simp
    rw [if_pos hcase, if_pos hcase, key, Real.sqrt_sq h]
  · rw [if_neg hcase, if_neg hcase]
    exact le_of_not_lt hcase

lemma stepIter_fst (cfg : Config) (st : List PositionedLabel × ℝ) :
    (stepIter cfg st).1 =
      applyBoundsConstraints cfg ((forcesPhase cfg st.1).map (integrateLabel cfg)) := rfl

/-- Claim C7: in every inner iteration each label is integrated by
`velocity += force`, `velocity *= friction`, clamp to `maxVelocity`
preserving direction, `position += velocity` (the position moves by exactly
the post-clamp velocity); consequently, at the end of every inner iteration
every label's velocity magnitude is at most `maxVelocity` (for
`maxVelocity ≥ 0`). -/
theorem velocity_clamped (cfg : Config) (h : 0 ≤ cfg.maxVelocity)
    (st : List PositionedLabel × ℝ) (l' : PositionedLabel)
    (hm : l' ∈ (stepIter cfg st).1) :
    Real.sqrt (l'.velocity.x ^ 2 + l'.velocity.y ^ 2) ≤ cfg.maxVelocity ∧
    ∀ l : PositionedLabel,
      (integrateLabel cfg l).position =
        ⟨l.position.x + (integrateLabel cfg l).velocity.x,
         l.position.y + (integrateLabel cfg l).velocity.y⟩ := by
  refine ⟨?_, fun l => rfl⟩
  rw [stepIter_fst, applyBoundsConstraints] at hm
  rcases List.mem_map.mp hm with ⟨l1, hl1, rfl⟩
  rcases List.mem_map.mp hl1 with ⟨l0, _, rfl⟩
  rw [boundsLabel_velocity]
  show Real.sqrt ((integrateLabel cfg l0).velocity.x ^ 2 +
                  (integrateLabel cfg l0).velocity.y ^ 2) ≤ cfg.maxVelocity
  simp only [integrateLabel]
  exact clamp_norm_le h

/-- Witness for C7 at a concrete configuration and state. -/
theorem velocity_clamped_witness :
    Real.sqrt (lblCalm.velocity.x ^ 2 + lblCalm.velocity.y ^ 2) ≤ cfgCalm.maxVelocity ∧
    ∀ l : PositionedLabel,
      (integrateLabel cfgCalm l).position =
        ⟨l.position.x + (integrateLabel cfgCalm l).velocity.x,
         l.position.y + (integrateLabel cfgCalm l).velocity.y⟩ :=
  velocity_clamped cfgCalm (by norm_num [cfgCalm]) ([lblCalm], 0) lblCalm
    (by rw [stepIter_calm]; exact List.mem_singleton.mpr rfl)

end ForceSim

namespace ForceSim

/-! ### Claim C4: the inter-label repulsion pair law -/

lemma repulsePair_def (cfg : Config) (a b : PositionedLabel) :
    repulsePair cfg a b =
      if pairDist a b < cfg.repulsionRadius ∧ pairDist a b > 0 then
        ({ a with force :=
            ⟨a.force.x - (b.position.x - a.position.x) / pairDist a b
                * (cfg.repulsionStrength / pairDist a b ^ 2),
             a.force.y - (b.position.y - a.position.y) / pairDist a b
                * (cfg.repulsionStrength / pairDist a b ^ 2)⟩ },
         { b with force :=
            ⟨b.force.x + (b.position.x - a.position.x) / pairDist a b
                * (cfg.repulsionStrength / pairDist a b ^ 2),
             b.force.y + (b.position.y - a.position.y) / pairDist a b
                * (cfg.repulsionStrength / pairDist a b ^ 2)⟩ })
      else (a, b) := rfl

lemma pairDist_sq (a b : PositionedLabel) :
    pairDist a b ^ 2 =
      (b.position.x - a.position.x) ^ 2 + (b.position.y - a.position.y) ^ 2 :=
  Real.sq_sqrt (by positivity)

/-- Claim C4: for every pair of labels at positive distance strictly below
`repulsionRadius`, the repulsion pass adds to the second member a force of
magnitude `repulsionStrength / distance²` collinear with the connecting
line and adds the exact negation of that vector to the first member
(Newton's third law); a pair at or beyond the radius, or at distance
exactly 0, is left untouched.  (Magnitude statement for nonnegative
`repulsionStrength`.) -/
theorem repulsion_pair_law (cfg : Config) (hS : 0 ≤ cfg.repulsionStrength)
    (a b : PositionedLabel) :
    (pairDist a b < cfg.repulsionRadius ∧ 0 < pairDist a b →
      ∃ f : Vec2,
        (repulsePair cfg a b).1 = { a with force := ⟨a.force.x - f.x, a.force.y - f.y⟩ } ∧
        (repulsePair cfg a b).2 = { b with force := ⟨b.force.x + f.x, b.force.y + f.y⟩ } ∧
        Real.sqrt (f.x ^ 2 + f.y ^ 2) = cfg.repulsionStrength / pairDist a b ^ 2 ∧
        f.x * (b.position.y - a.position.y) = f.y * (b.position.x - a.position.x)) ∧
    (cfg.repulsionRadius ≤ pairDist a b ∨ pairDist a b = 0 →
      repulsePair cfg a b = (a, b)) ∧
    applyRepulsionForces cfg [a, b] = [(repulsePair cfg a b).1, (repulsePair cfg a b).2] := by
  refine ⟨?_, ?_, applyRepulsionForces_pair cfg a b⟩
  · rintro ⟨hrad, hpos⟩
    set dx := b.position.x - a.position.x with hdx
    set dy := b.position.y - a.position.y with hdy
    set d := pairDist a b with hd
    have hdne : d ≠ 0 := ne_of_gt hpos
    refine ⟨⟨dx / d * (cfg.repulsionStrength / d ^ 2),
             dy / d * (cfg.repulsionStrength / d ^ 2)⟩, ?_, ?_, ?_, ?_⟩
    · rw [repulsePair_def, if_pos ⟨hrad, hpos⟩]
    · rw [repulsePair_def, if_pos ⟨hrad, hpos⟩]
    · show Real.sqrt ((dx / d * (cfg.repulsionStrength / d ^ 2)) ^ 2 +
                      (dy / d * (cfg.repulsionStrength / d ^ 2)) ^ 2)
          = cfg.repulsionStrength / d ^ 2
      have expand : (dx / d * (cfg.repulsionStrength / d ^ 2)) ^ 2 +
            (dy / d * (cfg.repulsionStrength / d ^ 2)) ^ 2
          = (dx ^ 2 + dy ^ 2) * (cfg.repulsionStrength / d ^ 2) ^ 2 / d ^ 2 := by
        ring
      rw [expand, ← pairDist_sq a b, ← hd]
      have hd2ne : d ^ 2 ≠ 0 := pow_ne_zero 2 hdne
      have collapse : d ^ 2 * (cfg.repulsionStrength / d ^ 2) ^ 2 / d ^ 2
          = (cfg.repulsionStrength / d ^ 2) ^ 2 := by
        field_simp
        ring
      rw [collapse]
      exact Real.sqrt_sq (div_nonneg hS (sq_nonneg d))
    · show dx / d * (cfg.repulsionStrength / d ^ 2) * dy
          = dy / d * (cfg.repulsionStrength / d ^ 2) * dx
      ring
  · intro h
    rw [repulsePair_def, if_neg]
    rintro ⟨h1, h2⟩
    rcases h with h | h
    · exact absurd h1 (not_lt.mpr h)
    · rw [h] at h2
      exact lt_irrefl 0 h2

/-- Witness for C4 at a concrete pair 10 units apart under `cfgCalm`. -/
theorem repulsion_pair_law_witness :
    (pairDist lblPairA lblPairB < cfgCalm.repulsionRadius ∧ 0 < pairDist lblPairA lblPairB →
      ∃ f : Vec2,
        (repulsePair cfgCalm lblPairA lblPairB).1 =
          { lblPairA with force := ⟨lblPairA.force.x - f.x, lblPairA.force.y - f.y⟩ } ∧
        (repulsePair cfgCalm lblPairA lblPairB).2 =
          { lblPairB with force := ⟨lblPairB.force.x + f.x, lblPairB.force.y + f.y⟩ } ∧
        Real.sqrt (f.x ^ 2 + f.y ^ 2) =
          cfgCalm.repulsionStrength / pairDist lblPairA lblPairB ^ 2 ∧
        f.x * (lblPairB.position.y - lblPairA.position.y) =
          f.y * (lblPairB.position.x - lblPairA.position.x)) ∧
    (cfgCalm.repulsionRadius ≤ pairDist lblPairA lblPairB ∨ pairDist lblPairA lblPairB = 0 →
      repulsePair cfgCalm lblPairA lblPairB = (lblPairA, lblPairB)) ∧
    applyRepulsionForces cfgCalm [lblPairA, lblPairB] =
      [(repulsePair cfgCalm lblPairA lblPairB).1, (repulsePair cfgCalm lblPairA lblPairB).2] :=
  repulsion_pair_law cfgCalm (by norm_num [cfgCalm]) lblPairA lblPairB

end ForceSim

namespace ForceSim

/-! ### Claim C8: collision resolution -/

lemma collidePair_def (cfg : Config) (a b : PositionedLabel) :
    collidePair cfg a b =
      if overlapX cfg a b > 0 ∧ overlapY cfg a b > 0 then
        if overlapX cfg a b < overlapY cfg a b then
          ({ a with force :=
              ⟨a.force.x - (if b.position.x - a.position.x > 0
                  then overlapX cfg a b else -overlapX cfg a b) * 0.5, a.force.y⟩ },
           { b with force :=
              ⟨b.force.x + (if b.position.x - a.position.x > 0
                  then overlapX cfg a b else -overlapX cfg a b) * 0.5, b.force.y⟩ })
        else
          ({ a with force :=
              ⟨a.force.x, a.force.y - (if b.position.y - a.position.y > 0
                  then overlapY cfg a b else -overlapY cfg a b) * 0.5⟩ },
           { b with force :=
              ⟨b.force.x, b.force.y + (if b.position.y - a.position.y > 0
                  then overlapY cfg a b else -overlapY cfg a b) * 0.5⟩ })
      else (a, b) := rfl

/-- Claim C8: collision forces are applied only when `enableCollision` is
set; for a pair whose padded boxes overlap on both axes, force is applied
only along the axis of smaller overlap (a tie takes the vertical axis),
with magnitude `overlap * 0.5` on each side in opposite directions; a
non-overlapping pair receives no collision force. -/
theorem collision_pair_law (cfg : Config) (a b : PositionedLabel) :
    (overlapX cfg a b > 0 ∧ overlapY cfg a b > 0 →
      (overlapX cfg a b < overlapY cfg a b →
        ∃ fx : ℝ, |fx| = overlapX cfg a b * 0.5 ∧
          (collidePair cfg a b).1 = { a with force := ⟨a.force.x - fx, a.force.y⟩ } ∧
          (collidePair cfg a b).2 = { b with force := ⟨b.force.x + fx, b.force.y⟩ }) ∧
      (¬ overlapX cfg a b < overlapY cfg a b →
        ∃ fy : ℝ, |fy| = overlapY cfg a b * 0.5 ∧
          (collidePair cfg a b).1 = { a with force := ⟨a.force.x, a.force.y - fy⟩ } ∧
          (collidePair cfg a b).2 = { b with force := ⟨b.force.x, b.force.y + fy⟩ })) ∧
    (¬(overlapX cfg a b > 0 ∧ overlapY cfg a b > 0) → collidePair cfg a b = (a, b)) ∧
    (∀ ls : List PositionedLabel, cfg.enableCollision = false → collisionPhase cfg ls = ls) ∧
    applyCollisionForces cfg [a, b] =
      [(collidePair cfg a b).1, (collidePair cfg a b).2] := by
  refine ⟨?_, ?_, ?_, applyCollisionForces_pair cfg a b⟩
  · intro hov
    constructor
    · intro hxy
      refine ⟨(if b.position.x - a.position.x > 0
          then overlapX cfg a b else -overlapX cfg a b) * 0.5, ?_, ?_, ?_⟩
      · rcases lt_or_ge 0 (b.position.x - a.position.x) with hdx | hdx
        · rw [if_pos hdx, abs_mul, abs_of_pos hov.1, abs_of_pos (by norm_num : (0:ℝ) < 0.5)]
        · rw [if_neg (not_lt.mpr hdx), neg_mul, abs_neg, abs_mul, abs_of_pos hov.1,
            abs_of_pos (by norm_num : (0:ℝ) < 0.5)]
      · rw [collidePair_def, if_pos hov, if_pos hxy]
      · rw [collidePair_def, if_pos hov, if_pos hxy]
    · intro hxy
      refine ⟨(if b.position.y - a.position.y > 0
          then overlapY cfg a b else -overlapY cfg a b) * 0.5, ?_, ?_, ?_⟩
      · rcases lt_or_ge 0 (b.position.y - a.position.y) with hdy | hdy
        · rw [if_pos hdy, abs_mul, abs_of_pos hov.2, abs_of_pos (by norm_num : (0:ℝ) < 0.5)]
        · rw [if_neg (not_lt.mpr hdy), neg_mul, abs_neg, abs_mul, abs_of_pos hov.2,
            abs_of_pos (by norm_num : (0:ℝ) < 0.5)]
      · rw [collidePair_def, if_pos hov, if_neg hxy]
      · rw [collidePair_def, if_pos hov, if_neg hxy]
  · intro hno
    rw [collidePair_def, if_neg hno]
  · intro ls hoff
    rw [collisionPhase, hoff]
    rfl

/-- Witness for C8: the full pair law instantiated at a concrete pair. -/
theorem collision_pair_law_witness :
    (overlapX cfgCalm lblPairA lblPairB > 0 ∧ overlapY cfgCalm lblPairA lblPairB > 0 →
      (overlapX cfgCalm lblPairA lblPairB < overlapY cfgCalm lblPairA lblPairB →
        ∃ fx : ℝ, |fx| = overlapX cfgCalm lblPairA lblPairB * 0.5 ∧
          (collidePair cfgCalm lblPairA lblPairB).1 =
            { lblPairA with force := ⟨lblPairA.force.x - fx, lblPairA.force.y⟩ } ∧
          (collidePair cfgCalm lblPairA lblPairB).2 =
            { lblPairB with force := ⟨lblPairB.force.x + fx, lblPairB.force.y⟩ }) ∧
      (¬ overlapX cfgCalm lblPairA lblPairB < overlapY cfgCalm lblPairA lblPairB →
        ∃ fy : ℝ, |fy| = overlapY cfgCalm lblPairA lblPairB * 0.5 ∧
          (collidePair cfgCalm lblPairA lblPairB).1 =
            { lblPairA with force := ⟨lblPairA.force.x, lblPairA.force.y - fy⟩ } ∧
          (collidePair cfgCalm lblPairA lblPairB).2 =
            { lblPairB with force := ⟨lblPairB.force.x, lblPairB.force.y + fy⟩ })) ∧
    (¬(overlapX cfgCalm lblPairA lblPairB > 0 ∧ overlapY cfgCalm lblPairA lblPairB > 0) →
      collidePair cfgCalm lblPairA lblPairB = (lblPairA, lblPairB)) ∧
    (∀ ls : List PositionedLabel, cfgCalm.enableCollision = false →
      collisionPhase cfgCalm ls = ls) ∧
    applyCollisionForces cfgCalm [lblPairA, lblPairB] =
      [(collidePair cfgCalm lblPairA lblPairB).1, (collidePair cfgCalm lblPairA lblPairB).2] :=
  collision_pair_law cfgCalm lblPairA lblPairB

end ForceSim

namespace ForceSim

/-! ### Claim C5: deterministic initial placement -/

lemma mapWithIndex_getElem? (f : ℕ → Label → PositionedLabel) (k : ℕ) (l : List Label)
    (i : ℕ) : (mapWithIndex f k l)[i]? = (l[i]?).map (f (k + i)) := by
  induction l generalizing k i with
  | nil => simp [mapWithIndex]
  | cons hd tl ih =>
      cases i with
      | zero => simp [mapWithIndex]
      | succ n =>
          have hk : k + (n + 1) = (k + 1) + n := by omega
          simp only [mapWithIndex, List.getElem?_cons_succ, ih (k + 1) n, hk]

lemma placeLabel_anchorDist (cfg : Config) (h0 : 0 ≤ cfg.minDistance) (n index : ℕ)
    (lbl : Label) : anchorDist (placeLabel cfg n index lbl) = cfg.minDistance + 20 := by
  set θ : ℝ := ((index : ℝ) * Real.pi * 2) / (n : ℝ) with hθ
  set r : ℝ := cfg.minDistance + 20 with hr
  have harg : (Real.cos θ * r) ^ 2 + (Real.sin θ * r) ^ 2 = r ^ 2 := by
    have expand : (Real.cos θ * r) ^ 2 + (Real.sin θ * r) ^ 2
        = (Real.sin θ ^ 2 + Real.cos θ ^ 2) * r ^ 2 := by ring
    rw [expand, Real.sin_sq_add_cos_sq, one_mul]
  have hshape : anchorDist (placeLabel cfg n index lbl)
      = Real.sqrt ((Real.cos θ * r) ^ 2 + (Real.sin θ * r) ^ 2) := by
    rw [anchorDist]
    congr 1
    simp only [placeLabel]
    ring
  rw [hshape, harg, Real.sqrt_sq (by linarith)]

/-- Claim C5: for every nonempty input list and configuration, `setLabels`
places the label at index `i` at the deterministic angle `i * 2π / N` on the
circle of radius `minDistance + 20` around its own anchor — so at exact
distance `minDistance + 20` from the anchor (for `minDistance ≥ 0`) — with
zero velocity and force and width/height defaulted to 100 and 30 when
absent. -/
theorem setLabels_placement (cfg : Config) (labels : List Label)
    (h0 : 0 ≤ cfg.minDistance) (i : ℕ) (lbl : Label) (hi : labels[i]? = some lbl) :
    (setLabels cfg labels)[i]? = some (placeLabel cfg labels.length i lbl) ∧
    (placeLabel cfg labels.length i lbl).position =
      ⟨lbl.anchor.x + Real.cos (((i : ℝ) * Real.pi * 2) / (labels.length : ℝ))
          * (cfg.minDistance + 20),
       lbl.anchor.y + Real.sin (((i : ℝ) * Real.pi * 2) / (labels.length : ℝ))
          * (cfg.minDistance + 20)⟩ ∧
    anchorDist (placeLabel cfg labels.length i lbl) = cfg.minDistance + 20 ∧
    (placeLabel cfg labels.length i lbl).velocity = ⟨0, 0⟩ ∧
    (placeLabel cfg labels.length i lbl).force = ⟨0, 0⟩ ∧
    (placeLabel cfg labels.length i lbl).width = some (lbl.width.getD 100) ∧
    (placeLabel cfg labels.length i lbl).height = some (lbl.height.getD 30) := by
  refine ⟨?_, rfl, placeLabel_anchorDist cfg h0 labels.length i lbl, rfl, rfl, rfl, rfl⟩
  rw [setLabels, mapWithIndex_getElem?, hi, Nat.zero_add]
  rfl

/-- Witness for C5 at a concrete one-label input under the default
configuration. -/
theorem setLabels_placement_witness :
    (setLabels defaultConfig [lblInput])[0]? = some (placeLabel defaultConfig 1 0 lblInput) ∧
    (placeLabel defaultConfig 1 0 lblInput).position =
      ⟨lblInput.anchor.x + Real.cos (((0 : ℕ) * Real.pi * 2) / ((1 : ℕ) : ℝ))
          * (defaultConfig.minDistance + 20),
       lblInput.anchor.y + Real.sin (((0 : ℕ) * Real.pi * 2) / ((1 : ℕ) : ℝ))
          * (defaultConfig.minDistance + 20)⟩ ∧
    anchorDist (placeLabel defaultConfig 1 0 lblInput) = defaultConfig.minDistance + 20 ∧
    (placeLabel defaultConfig 1 0 lblInput).velocity = ⟨0, 0⟩ ∧
    (placeLabel defaultConfig 1 0 lblInput).force = ⟨0, 0⟩ ∧
    (placeLabel defaultConfig 1 0 lblInput).width = some (lblInput.width.getD 100) ∧
    (placeLabel defaultConfig 1 0 lblInput).height = some (lblInput.height.getD 30) :=
  setLabels_placement defaultConfig [lblInput] (by norm_num [defaultConfig]) 0 lblInput rfl

end ForceSim

namespace ForceSim

/-! ### Claim C1: the distance-bounds clamp -/

lemma boundsLabel_def (cfg : Config) (l : PositionedLabel) :
    boundsLabel cfg l =
      if anchorDist l < cfg.minDistance ∧ anchorDist l > 0 then
        { l with position :=
            ⟨l.anchor.x + (l.position.x - l.anchor.x) * (cfg.minDistance / anchorDist l),
             l.anchor.y + (l.position.y - l.anchor.y) * (cfg.minDistance / anchorDist l)⟩ }
      else if anchorDist l > cfg.maxDistance ∧ anchorDist l > 0 then
        { l with position :=
            ⟨l.anchor.x + (l.position.x - l.anchor.x) * (cfg.maxDistance / anchorDist l),
             l.anchor.y + (l.position.y - l.anchor.y) * (cfg.maxDistance / anchorDist l)⟩ }
      else l := rfl

lemma anchorDist_rescale (l : PositionedLabel) (s : ℝ) (hs : 0 ≤ s) :
    anchorDist { l with position :=
        ⟨l.anchor.x + (l.position.x - l.anchor.x) * s,
         l.anchor.y + (l.position.y - l.anchor.y) * s⟩ }
      = s * anchorDist l := by
  show Real.sqrt ((l.anchor.x + (l.position.x - l.anchor.x) * s - l.anchor.x) ^ 2 +
                  (l.anchor.y + (l.position.y - l.anchor.y) * s - l.anchor.y) ^ 2)
      = s * Real.sqrt ((l.position.x - l.anchor.x) ^ 2 + (l.position.y - l.anchor.y) ^ 2)
  have harg : (l.anchor.x + (l.position.x - l.anchor.x) * s - l.anchor.x) ^ 2 +
        (l.anchor.y + (l.position.y - l.anchor.y) * s - l.anchor.y) ^ 2
      = s ^ 2 * ((l.position.x - l.anchor.x) ^ 2 + (l.position.y - l.anchor.y) ^ 2) := by
    ring
  rw [harg, Real.sqrt_mul (sq_nonneg s), Real.sqrt_sq hs]

lemma boundsLabel_dist (cfg : Config) (hmin : 0 < cfg.minDistance)
    (hmm : cfg.minDistance ≤ cfg.maxDistance) (l : PositionedLabel)
    (hne : anchorDist (boundsLabel cfg l) ≠ 0) :
    cfg.minDistance ≤ anchorDist (boundsLabel cfg l) ∧
    anchorDist (boundsLabel cfg l) ≤ cfg.maxDistance := by
  rw [boundsLabel_def] at hne ⊢
  by_cases h1 : anchorDist l < cfg.minDistance ∧ anchorDist l > 0
  · rw [if_pos h1] at hne ⊢
    rw [anchorDist_rescale l _ (le_of_lt (div_pos hmin h1.2))]
    rw [div_mul_cancel₀ _ (ne_of_gt h1.2)]
    exact ⟨le_refl _, hmm⟩
  · rw [if_neg h1] at hne ⊢
    by_cases h2 : anchorDist l > cfg.maxDistance ∧ anchorDist l > 0
    · have hmax : 0 < cfg.maxDistance := lt_of_lt_of_le hmin hmm
      rw [if_pos h2] at hne ⊢
      rw [anchorDist_rescale l _ (le_of_lt (div_pos hmax h2.2))]
      rw [div_mul_cancel₀ _ (ne_of_gt h2.2)]
      exact ⟨hmm, le_refl _⟩
    · rw [if_neg h2] at hne ⊢
      have hpos : 0 < anchorDist l :=
        lt_of_le_of_ne (Real.sqrt_nonneg _) (Ne.symm hne)
      constructor
      · rcases not_and_or.mp h1 with h | h
        · exact le_of_not_lt h
        · exact absurd hpos (by simpa using h)
      · rcases not_and_or.mp h2 with h | h
        · exact le_of_not_lt h
        · exact absurd hpos (by simpa using h)

/-- Claim C1 (amended): at the end of every `step()` call with at least one
inner iteration and `0 < minDistance ≤ maxDistance`, every label whose
position differs from its anchor satisfies
`minDistance ≤ |position − anchor| ≤ maxDistance`.  (The clamp is NOT
unconditional: a label sitting exactly on its anchor is skipped by the
bounds pass and keeps distance 0 — see the counterexample.) -/
theorem bounds_invariant (cfg : Config) (hmin : 0 < cfg.minDistance)
    (hmm : cfg.minDistance ≤ cfg.maxDistance) (hit : 0 < cfg.iterations)
    (ls : List PositionedLabel) (l' : PositionedLabel) (hm : l' ∈ (step cfg ls).1)
    (hne : anchorDist l' ≠ 0) :
    cfg.minDistance ≤ anchorDist l' ∧ anchorDist l' ≤ cfg.maxDistance := by
  by_cases hlen : ls.length = 0
  · rw [step, if_pos hlen] at hm
    rcases List.length_eq_zero.mp hlen with rfl
    simp at hm
  · simp only [step, if_neg hlen] at hm
    obtain ⟨m, hmeq⟩ : ∃ m, cfg.iterations = m + 1 := ⟨cfg.iterations - 1, by omega⟩
    rw [hmeq, Function.iterate_succ_apply'] at hm
    rw [stepIter_fst, applyBoundsConstraints] at hm
    rcases List.mem_map.mp hm with ⟨l0, _, rfl⟩
    exact boundsLabel_dist cfg hmin hmm l0 hne

lemma step_calm : step cfgCalm [lblCalm] = ([lblCalm], true) := by
  rw [step, if_neg (by norm_num)]
  rw [show cfgCalm.iterations = 1 from rfl, Function.iterate_one, stepIter_calm]
  norm_num [cfgCalm, decide_eq_true_eq]

/-- Witness for C1 at a concrete converged single-label state. -/
theorem bounds_invariant_witness :
    cfgCalm.minDistance ≤ anchorDist lblCalm ∧ anchorDist lblCalm ≤ cfgCalm.maxDistance :=
  bounds_invariant cfgCalm (by norm_num [cfgCalm]) (by norm_num [cfgCalm])
    (by norm_num [cfgCalm]) [lblCalm] lblCalm
    (by rw [step_calm]; exact List.mem_singleton.mpr rfl)
    (by rw [anchorDist]; norm_num [lblCalm, mkLbl, sqrt_3600])

lemma stepIter_onAnchor :
    stepIter cfgOnAnchor ([lblCalm], 0) =
      ([{ lblCalm with position := ⟨0, 0⟩, velocity := ⟨-60, 0⟩, force := ⟨-60, 0⟩ }], 60) := by
  norm_num [stepIter, forcesPhase, collisionPhase, resetForces, applyAnchorForces,
    anchorForceLabel, applyRepulsionForces, pairIdx_one, integrate, integrateLabel, forceMag,
    applyBoundsConstraints, boundsLabel, Function.comp, cfgOnAnchor, lblCalm, mkLbl,
    sqrt_3600, Real.sqrt_zero, max_def]

lemma step_onAnchor :
    step cfgOnAnchor [lblCalm] =
      ([{ lblCalm with position := ⟨0, 0⟩, velocity := ⟨-60, 0⟩, force := ⟨-60, 0⟩ }], false) := by
  rw [step, if_neg (by norm_num)]
  rw [show cfgOnAnchor.iterations = 1 from rfl, Function.iterate_one, stepIter_onAnchor]
  norm_num [cfgOnAnchor, decide_eq_false_iff_not]

/-- Counterexample to claim C1 as stated: under `cfgOnAnchor`
(`0 < minDistance = 40 ≤ maxDistance = 200`) the single label of `lblCalm`
ends the `step()` call exactly on its anchor — distance 0 < `minDistance` —
because the bounds pass skips labels at distance zero. -/
theorem bounds_invariant_cex :
    0 < cfgOnAnchor.minDistance ∧ cfgOnAnchor.minDistance ≤ cfgOnAnchor.maxDistance ∧
    0 < cfgOnAnchor.iterations ∧
    ∃ l' ∈ (step cfgOnAnchor [lblCalm]).1, anchorDist l' < cfgOnAnchor.minDistance := by
  refine ⟨by norm_num [cfgOnAnchor], by norm_num [cfgOnAnchor], by norm_num [cfgOnAnchor], ?_⟩
  rw [step_onAnchor]
  refine ⟨{ lblCalm with position := ⟨0, 0⟩, velocity := ⟨-60, 0⟩, force := ⟨-60, 0⟩ },
    List.mem_singleton.mpr rfl, ?_⟩
  rw [anchorDist]
  norm_num [lblCalm, mkLbl, cfgOnAnchor, Real.sqrt_zero]

end ForceSim

namespace ForceSim

/-! ### Claim C2: the convergence signal -/

lemma stepIter_snd (cfg : Config) (st : List PositionedLabel × ℝ) :
    (stepIter cfg st).2 =
      (forcesPhase cfg st.1).foldl (fun m label => max m (forceMag label)) st.2 := rfl

lemma foldl_max_split (l : List PositionedLabel) (m : ℝ) (hm : 0 ≤ m) :
    l.foldl (fun acc x => max acc (forceMag x)) m
      = max m (l.foldl (fun acc x => max acc (forceMag x)) 0) := by
  induction l generalizing m with
  | nil => exact (max_eq_left hm).symm
  | cons x t ih =>
      simp only [List.foldl_cons]
      rw [ih (max m (forceMag x)) (le_trans hm (le_max_left _ _)),
          ih (max 0 (forceMag x)) (le_max_left _ _),
          max_eq_right (show (0 : ℝ) ≤ forceMag x from Real.sqrt_nonneg _), max_assoc]

lemma stepIter_acc (cfg : Config) (ls : List PositionedLabel) (m : ℝ) (hm : 0 ≤ m) :
    (stepIter cfg (ls, m)).2 = max m ((stepIter cfg (ls, 0)).2) := by
  rw [stepIter_snd, stepIter_snd]
  exact foldl_max_split _ m hm

lemma stepIter_fst_acc (cfg : Config) (ls : List PositionedLabel) (m : ℝ) :
    (stepIter cfg (ls, m)).1 = (stepIter cfg (ls, 0)).1 := rfl

lemma acc_nonneg (cfg : Config) (ls : List PositionedLabel) (n : ℕ) :
    0 ≤ ((stepIter cfg)^[n] (ls, 0)).2 := by
  induction n with
  | zero => exact le_refl 0
  | succ n ih =>
      rw [Function.iterate_succ_apply']
      rcases hp : (stepIter cfg)^[n] (ls, 0) with ⟨L, m⟩
      rw [hp] at ih
      rw [stepIter_acc cfg L m ih]
      exact le_trans ih (le_max_left _ _)

lemma labelsAfter_succ (cfg : Config) (ls : List PositionedLabel) (k : ℕ) :
    labelsAfter cfg ls (k + 1) = (stepIter cfg (labelsAfter cfg ls k, 0)).1 := by
  rw [labelsAfter, Function.iterate_succ_apply']
  rcases hp : (stepIter cfg)^[k] (ls, 0) with ⟨L, m⟩
  have hL : labelsAfter cfg ls k = L := by rw [labelsAfter, hp]
  rw [hL, stepIter_fst_acc]

lemma acc_succ (cfg : Config) (ls : List PositionedLabel) (k : ℕ) :
    ((stepIter cfg)^[k + 1] (ls, 0)).2
      = max (((stepIter cfg)^[k] (ls, 0)).2) (iterMaxForce cfg ls k) := by
  rw [Function.iterate_succ_apply']
  rcases hp : (stepIter cfg)^[k] (ls, 0) with ⟨L, m⟩
  have hm : 0 ≤ m := by
    have h := acc_nonneg cfg ls k
    rw [hp] at h
    exact h
  have hL : labelsAfter cfg ls k = L := by rw [labelsAfter, hp]
  rw [stepIter_acc cfg L m hm, iterMaxForce, hL]

lemma acc_lt_iff (cfg : Config) (ls : List PositionedLabel) (t : ℝ) (n : ℕ) :
    ((stepIter cfg)^[n] (ls, 0)).2 < t ↔
      (0 < t ∧ ∀ k < n, iterMaxForce cfg ls k < t) := by
  induction n with
  | zero => simp
  | succ n ih =>
      rw [acc_succ, max_lt_iff, ih]
      constructor
      · rintro ⟨⟨ht, hall⟩, hlast⟩
        refine ⟨ht, fun k hk => ?_⟩
        rcases Nat.lt_succ_iff_lt_or_eq.mp hk with h | rfl
        · exact hall k h
        · exact hlast
      · rintro ⟨ht, hall⟩
        exact ⟨⟨ht, fun k hk => hall k (Nat.lt_succ_of_lt hk)⟩, hall n (Nat.lt_succ_self n)⟩

/-- Claim C2 (amended): `step()` on a nonempty label set performs
`iterations` passes and returns `true` iff the maximum per-label force
magnitude of EVERY inner iteration of the call stayed below `threshold`
(for a positive threshold) — the accumulator is shared across the whole
call, so earlier iterations do affect the return value, contrary to the
claim as stated. -/
theorem step_convergence (cfg : Config) (ls : List PositionedLabel)
    (hne : ls ≠ []) (ht : 0 < cfg.threshold) :
    ((step cfg ls).2 = true ↔
      ∀ k < cfg.iterations, iterMaxForce cfg ls k < cfg.threshold) := by
  have hlen : ¬ ls.length = 0 := fun h => hne (List.length_eq_zero.mp h)
  simp only [step, if_neg hlen]
  rw [decide_eq_true_eq, acc_lt_iff]
  constructor
  · rintro ⟨_, h⟩
    exact h
  · intro h
    exact ⟨ht, h⟩

/-- Witness for C2 at a concrete single-label state. -/
theorem step_convergence_witness :
    ((step cfgCalm [lblCalm]).2 = true ↔
      ∀ k < cfgCalm.iterations, iterMaxForce cfgCalm [lblCalm] k < cfgCalm.threshold) :=
  step_convergence cfgCalm [lblCalm] (by simp) (by norm_num [cfgCalm])

lemma stepIter_accum1 :
    stepIter cfgAccum ([lblAccum], 0) =
      ([{ lblAccum with position := ⟨4, 0⟩, velocity := ⟨-4, 0⟩, force := ⟨-4, 0⟩ }], 4) := by
  norm_num [stepIter, forcesPhase, collisionPhase, resetForces, applyAnchorForces,
    anchorForceLabel, applyRepulsionForces, pairIdx_one, integrate, integrateLabel, forceMag,
    applyBoundsConstraints, boundsLabel, Function.comp, cfgAccum, lblAccum, mkLbl,
    sqrt_64, sqrt_16, Real.sqrt_zero, max_def]

lemma stepIter_accum2 :
    stepIter cfgAccum
        ([{ lblAccum with position := ⟨4, 0⟩, velocity := ⟨-4, 0⟩, force := ⟨-4, 0⟩ }], 4) =
      ([{ lblAccum with position := ⟨-2, 0⟩, velocity := ⟨-6, 0⟩, force := ⟨-2, 0⟩ }], 4) := by
  norm_num [stepIter, forcesPhase, collisionPhase, resetForces, applyAnchorForces,
    anchorForceLabel, applyRepulsionForces, pairIdx_one, integrate, integrateLabel, forceMag,
    applyBoundsConstraints, boundsLabel, Function.comp, cfgAccum, lblAccum, mkLbl,
    sqrt_16, sqrt_36, sqrt_4, Real.sqrt_zero, max_def]

lemma stepIter_accum2zero :
    stepIter cfgAccum
        ([{ lblAccum with position := ⟨4, 0⟩, velocity := ⟨-4, 0⟩, force := ⟨-4, 0⟩ }], 0) =
      ([{ lblAccum with position := ⟨-2, 0⟩, velocity := ⟨-6, 0⟩, force := ⟨-2, 0⟩ }], 2) := by
  norm_num [stepIter, forcesPhase, collisionPhase, resetForces, applyAnchorForces,
    anchorForceLabel, applyRepulsionForces, pairIdx_one, integrate, integrateLabel, forceMag,
    applyBoundsConstraints, boundsLabel, Function.comp, cfgAccum, lblAccum, mkLbl,
    sqrt_16, sqrt_36, sqrt_4, Real.sqrt_zero, max_def]

lemma iterate_two_apply {α : Type _} (f : α → α) (x : α) : f^[2] x = f (f x) := by
  rw [show (2 : ℕ) = 1 + 1 from rfl, Function.iterate_succ_apply', Function.iterate_one]

lemma step_accum :
    step cfgAccum [lblAccum] =
      ([{ lblAccum with position := ⟨-2, 0⟩, velocity := ⟨-6, 0⟩, force := ⟨-2, 0⟩ }], false) := by
  rw [step, if_neg (by norm_num)]
  rw [show cfgAccum.iterations = 2 from rfl, iterate_two_apply, stepIter_accum1, stepIter_accum2]
  norm_num [cfgAccum, decide_eq_false_iff_not]

/-- Counterexample to claim C2 as stated: under `cfgAccum` (2 iterations,
threshold 3) the final inner iteration records maximum force magnitude 2,
strictly below the threshold, yet `step()` returns `false`, because
iteration 1 recorded magnitude 4 and the accumulator spans the whole call. -/
theorem step_convergence_cex :
    (step cfgAccum [lblAccum]).2 = false ∧
    iterMaxForce cfgAccum [lblAccum] (cfgAccum.iterations - 1) < cfgAccum.threshold := by
  constructor
  · rw [step_accum]
  · have hl : labelsAfter cfgAccum [lblAccum] 1 =
        [{ lblAccum with position := ⟨4, 0⟩, velocity := ⟨-4, 0⟩, force := ⟨-4, 0⟩ }] := by
      rw [labelsAfter, Function.iterate_one, stepIter_accum1]
    have h : iterMaxForce cfgAccum [lblAccum] 1 = 2 := by
      rw [iterMaxForce, hl, stepIter_accum2zero]
    rw [show cfgAccum.iterations - 1 = 1 from rfl, h]
    norm_num [cfgAccum]

end ForceSim

namespace ForceSim

/-! ### Claim C3: anchor repulsion does not exist in the custom engine -/

lemma anchorForceLabel_width (cfg : Config) (l : PositionedLabel) :
    (anchorForceLabel cfg l).width = l.width :=
  congrArg Label.width (anchorForceLabel_toLabel cfg l)

lemma anchorForceLabel_height (cfg : Config) (l : PositionedLabel) :
    (anchorForceLabel cfg l).height = l.height :=
  congrArg Label.height (anchorForceLabel_toLabel cfg l)

lemma repulsePair_snd_width (cfg : Config) (a b : PositionedLabel) :
    (repulsePair cfg a b).2.width = b.width :=
  congrArg Label.width (repulsePair_snd_toLabel cfg a b)

lemma repulsePair_snd_height (cfg : Config) (a b : PositionedLabel) :
    (repulsePair cfg a b).2.height = b.height :=
  congrArg Label.height (repulsePair_snd_toLabel cfg a b)

lemma repulsePair_fst_congr (cfg : Config) (x : PositionedLabel) {y y' : PositionedLabel}
    (hp : y.position = y'.position) :
    (repulsePair cfg x y).1 = (repulsePair cfg x y').1 := by
  simp only [repulsePair, apply_ite Prod.fst, hp]

lemma collidePair_fst_congr (cfg : Config) (x : PositionedLabel) {y y' : PositionedLabel}
    (hp : y.position = y'.position) (hw : y.width = y'.width) (hh : y.height = y'.height) :
    (collidePair cfg x y).1 = (collidePair cfg x y').1 := by
  simp only [collidePair, apply_ite Prod.fst, hp, hw, hh]

lemma forcesPhase_pair_fst (cfg : Config) (p : PositionedLabel) {q q' : PositionedLabel}
    (hp : q.position = q'.position) (hw : q.width = q'.width) (hh : q.height = q'.height) :
    (forcesPhase cfg [p, q])[0]? = (forcesPhase cfg [p, q'])[0]? := by
  rw [forcesPhase, forcesPhase]
  simp only [resetForces, List.map_cons, List.map_nil, applyAnchorForces]
  rw [applyRepulsionForces_pair, applyRepulsionForces_pair]
  set p1 := anchorForceLabel cfg { p with force := (⟨0, 0⟩ : Vec2) } with hp1
  set q1 := anchorForceLabel cfg { q with force := (⟨0, 0⟩ : Vec2) } with hq1
  set q1' := anchorForceLabel cfg { q' with force := (⟨0, 0⟩ : Vec2) } with hq1'
  have hq1pos : q1.position = q1'.position := by
    rw [hq1, hq1', anchorForceLabel_position, anchorForceLabel_position]
    exact hp
  have hq1w : q1.width = q1'.width := by
    rw [hq1, hq1', anchorForceLabel_width, anchorForceLabel_width]
    exact hw
  have hq1h : q1.height = q1'.height := by
    rw [hq1, hq1', anchorForceLabel_height, anchorForceLabel_height]
    exact hh
  have hr1 : (repulsePair cfg p1 q1).1 = (repulsePair cfg p1 q1').1 :=
    repulsePair_fst_congr cfg p1 hq1pos
  rw [collisionPhase, collisionPhase]
  cases hc : cfg.enableCollision
  · rw [if_neg (by simp), if_neg (by simp)]
    simp only [List.getElem?_cons_zero]
    rw [hr1]
  · rw [if_pos rfl, if_pos rfl]
    rw [applyCollisionForces_pair, applyCollisionForces_pair]
    simp only [List.getElem?_cons_zero, hr1]
    congr 1
    apply collidePair_fst_congr
    · rw [repulsePair_snd_position, repulsePair_snd_position]
      exact hq1pos
    · rw [repulsePair_snd_width, repulsePair_snd_width]
      exact hq1w
    · rw [repulsePair_snd_height, repulsePair_snd_height]
      exact hq1h

/-- Claim C3 (amended): in every inner iteration of the canonical custom
engine each label receives ONLY anchor attraction, inter-label repulsion
and optional collision forces; there is no anchor-repulsion force at all —
a label's outcome of the force-application phase is completely independent
of every other label's anchor.  (The anchor-repulsion force of the claim
exists only in the non-canonical D3-based engine variant.) -/
theorem no_anchor_repulsion (cfg : Config) (a b : PositionedLabel) (v : Vec2) :
    (forcesPhase cfg [a, { b with anchor := v }])[0]? = (forcesPhase cfg [a, b])[0]? :=
  forcesPhase_pair_fst cfg a rfl rfl rfl

lemma sqrt_980100 : Real.sqrt 980100 = 990 := sqrtOfSq (by norm_num) (by norm_num)

lemma forcesPhase_near :
    forcesPhase cfgAnchorRep [lblNearAnchor, lblFar] =
      [{ lblNearAnchor with force := ⟨-(6 / 5), 0⟩ },
       { lblFar with force := ⟨-99, 0⟩ }] := by
  norm_num [forcesPhase, collisionPhase, resetForces, applyAnchorForces, anchorForceLabel,
    applyRepulsionForces, pairIdx_two, repulsePairAt, repulsePair, List.set,
    cfgAnchorRep, lblNearAnchor, lblFar, mkLbl, sqrt_144, sqrt_976144, sqrt_980100]

/-- Counterexample to claim C3 as stated: `lblNearAnchor` sits 2 units from
`lblFar`'s anchor — well inside the claimed cutoff `repulsionRadius * 0.5 =
50` — so the claim demands the nonzero anchor-repulsion contribution
`(25, 0)` on top of the anchor attraction `(-6/5, 0)`; the engine's forces
phase delivers exactly the attraction `(-6/5, 0)` and nothing more. -/
theorem no_anchor_repulsion_cex :
    forcesPhase cfgAnchorRep [lblNearAnchor, lblFar] =
      [{ lblNearAnchor with force := ⟨-(6 / 5), 0⟩ },
       { lblFar with force := ⟨-99, 0⟩ }] ∧
    specAnchorRepulsionForce cfgAnchorRep lblNearAnchor lblFar.anchor = ⟨25, 0⟩ ∧
    (⟨-(6 / 5), 0⟩ : Vec2) ≠ ⟨-(6 / 5) + 25, 0 + 0⟩ := by
  refine ⟨forcesPhase_near, ?_, ?_⟩
  · norm_num [specAnchorRepulsionForce, cfgAnchorRep, lblNearAnchor, lblFar, mkLbl, sqrt_4]
  · intro h
    have hx : (-(6 / 5) : ℝ) = -(6 / 5) + 25 := congrArg Vec2.x h
    norm_num at hx

end ForceSim
